import Mathlib

/-!
Shallow embedding of `src/inventory.py` (a single-file shoe-warehouse
inventory tool) and verification of its natural-language specification.

The program keeps an in-memory list of `Shoe` records (`shoes_list`),
loads it from a flat text file (`read_shoes_data`), appends interactively
captured records (`capture_shoes`), restocks the lowest-quantity record
and persists that single quantity change by rewriting the backing file
(`re_stock` / `_update_quantity_in_file`), and searches by code
(`search_shoe`).

Modelling conventions:
 - the backing file is a `List String`, one element per line exactly as
   Python's `readlines` returns them (each line keeps its trailing
   newline, except possibly the last);
 - interactive `input()` calls become explicit `String` arguments or a
   `List String` input stream; an indefinitely re-prompting loop that
   never receives a valid value is modelled by `Option` (`none` = the
   real program would still be blocked at the prompt);
 - `print` calls become a `List Msg` of emitted messages;
 - Python `float` values are modelled as `Rat` (the file format only ever
   holds decimal literals) and Python `int` as `Int`;
 - string primitives (`strip`, `split`, `lower`, `rstrip`, `endswith`)
   are re-implemented structurally on `List Char` so that every
   definition evaluates inside the kernel.
-/

/-- The six ASCII whitespace characters stripped by Python `str.strip()`. -/
def isPySpace (c : Char) : Bool :=
  c == ' ' || c == '\t' || c == '\n' || c == '\r' || c == '\x0b' || c == '\x0c'

/-- `str.strip()` on a character list. -/
def pyStripL (cs : List Char) : List Char :=
  ((cs.dropWhile isPySpace).reverse.dropWhile isPySpace).reverse

/-- Python `str.strip()`. -/
def pyStrip (s : String) : String :=
  ⟨pyStripL s.data⟩

/-- `str.rstrip("\n")` on a character list: drop trailing newline characters. -/
def rstripNLL (cs : List Char) : List Char :=
  (cs.reverse.dropWhile (fun c => c == '\n')).reverse

/-- Python `str.rstrip("\n")`. -/
def rstripNLStr (s : String) : String :=
  ⟨rstripNLL s.data⟩

/-- Auxiliary splitter: accumulates the current field (reversed) while
scanning for the separator. -/
def splitAux (sep : Char) (acc : List Char) : List Char → List (List Char)
  | [] => [acc.reverse]
  | c :: rest =>
    if c == sep then acc.reverse :: splitAux sep [] rest
    else splitAux sep (c :: acc) rest

/-- Python `str.split(sep)` for a one-character separator
(`"".split(",") = [""]`, exactly as in Python). -/
def pySplit (s : String) (sep : Char) : List String :=
  (splitAux sep [] s.data).map (fun cs => ⟨cs⟩)

/-- Python `str.lower()` (ASCII case folding, which is all the program needs). -/
def pyLower (s : String) : String :=
  ⟨s.data.map Char.toLower⟩

/-- `str.endswith("\n")`. -/
def endsWithNL (s : String) : Bool :=
  match s.data.getLast? with
  | some c => c == '\n'
  | none => false

/-- The file-rewrite in `_update_quantity_in_file` appends a final newline
to every kept non-blank line: `line if line.endswith("\n") else line + "\n"`. -/
def ensureNL (line : String) : String :=
  if endsWithNL line then line else line ++ "\n"

/-- Value of a non-empty all-digit character list, `none` otherwise. -/
def digitsToNat? (cs : List Char) : Option Nat :=
  if cs ≠ [] ∧ cs.all Char.isDigit then
    some (cs.foldl (fun a c => a * 10 + (c.toNat - 48)) 0)
  else none

/-- Python `int(s)`: strips whitespace, optional sign, then decimal digits.
(Underscore digit grouping, an edge case never exercised here, is not
modelled.) -/
def pyInt? (s : String) : Option Int :=
  match pyStripL s.data with
  | '+' :: rest => (digitsToNat? rest).map Int.ofNat
  | '-' :: rest => (digitsToNat? rest).map (fun n => -(n : Int))
  | cs => (digitsToNat? cs).map Int.ofNat

/-- Numeric value of a digit list (0 for the empty list). -/
def digitsVal (cs : List Char) : Nat :=
  cs.foldl (fun a c => a * 10 + (c.toNat - 48)) 0

/-- Mantissa of a decimal literal: `digits`, `digits.digits`, `digits.`,
or `.digits`; the value of `whole.frac` is `(whole*10^k + frac) / 10^k`. -/
def decBody? (cs : List Char) : Option Rat :=
  match splitAux '.' [] cs with
  | [whole] => (digitsToNat? whole).map (fun n => mkRat (Int.ofNat n) 1)
  | [whole, frac] =>
    if (whole ≠ [] ∨ frac ≠ []) ∧ whole.all Char.isDigit ∧ frac.all Char.isDigit then
      some (mkRat (Int.ofNat (digitsVal whole * 10 ^ frac.length + digitsVal frac))
                  (10 ^ frac.length))
    else none
  | _ => none

/-- Python `float(s)` restricted to plain signed decimal literals (no
exponent, `inf` or `nan` — the only float formats this program's data
and prompts ever carry), returned exactly as a rational. -/
def pyFloat? (s : String) : Option Rat :=
  match pyStripL s.data with
  | '+' :: rest => decBody? rest
  | '-' :: rest => (decBody? rest).map (fun q => -q)
  | cs => decBody? cs

/-- Digits of `n` in base 10, most significant first; `fuel` bounds the
recursion (any `fuel > log10 n` gives the exact digits). -/
def natDigitsAux (fuel : Nat) (n : Nat) (acc : List Char) : List Char :=
  match fuel with
  | 0 => acc
  | fuel + 1 =>
    let acc := Char.ofNat (48 + n % 10) :: acc
    if n < 10 then acc else natDigitsAux fuel (n / 10) acc

/-- Python `str(n)` for a natural number. -/
def natToStr (n : Nat) : String :=
  ⟨natDigitsAux (n + 1) n []⟩

/-- Python `str(n)` for an integer (as interpolated by the f-string in
`_update_quantity_in_file`). -/
def intToStr (n : Int) : String :=
  match n with
  | .ofNat m => natToStr m
  | .negSucc m => "-" ++ natToStr (m + 1)

/-- One inventory record (`class Shoe`): `country`, `code`, `product`,
`cost`, `quantity`. -/
structure Shoe where
  country : String
  code : String
  product : String
  cost : Rat
  quantity : Int
deriving DecidableEq

instance : Inhabited Shoe := ⟨⟨"", "", "", 0, 0⟩⟩

/-- The messages the program prints, one constructor per `print` site the
claims are about. -/
inductive Msg where
  | emptyFile
  | fileNotFoundMsg
  | permissionDeniedMsg
  | unexpectedReadError (e : String)
  | skipInvalidLine (lineNo : Nat) (line : String)
  | skipBadNumber (lineNo : Nat) (line : String)
  | loaded (n : Nat)
  | shoeCaptured
  | nothingLoaded
  | lowestStockItem (s : Shoe)
  | restockCancelled
  | warnFileNotUpdated
  | stockUpdated (s : Shoe)
deriving DecidableEq

/-- Outcome of `open(INVENTORY_FILE).readlines()` at the start of
`read_shoes_data`: the lines, or one of the caught exceptions. -/
inductive ReadOutcome where
  | ok (lines : List String)
  | fileMissing
  | permissionDenied
  | otherError (e : String)

/-- Result of examining one data line in `read_shoes_data`'s loop body:
blank (silently skipped), wrong field count, bad cost/quantity text, or a
successfully decoded `Shoe`. -/
inductive LineParse where
  | blank
  | badCount (stripped : String)
  | badNumber (stripped : String)
  | ok (s : Shoe)

/-- The body of `read_shoes_data`'s per-line loop: strip the line, skip it
when blank, split on commas stripping each field, require exactly five
fields, then parse `cost` as a float and `quantity` as an int. -/
def classifyLine (line : String) : LineParse :=
  let t := pyStrip line
  if t = "" then .blank
  else
    match (pySplit t ',').map pyStrip with
    | [country, code, product, cost_str, qty_str] =>
      match pyFloat? cost_str, pyInt? qty_str with
      | some cost, some quantity => .ok ⟨country, code, product, cost, quantity⟩
      | _, _ => .badNumber t
    | _ => .badCount t

/-- The `Shoe` a data line yields, if any (`none` for blank and malformed
lines). -/
def decodeLine (line : String) : Option Shoe :=
  match classifyLine line with
  | .ok s => some s
  | _ => none

/-- `read_shoes_data`'s loop over `lines[1:]` with line numbers starting
at 2: collects decoded shoes in file order and a skip diagnostic for each
malformed (non-blank, undecodable) line. -/
def parseLines (lineNo : Nat) : List String → List Shoe × List Msg
  | [] => ([], [])
  | l :: rest =>
    let r := parseLines (lineNo + 1) rest
    match classifyLine l with
    | .blank => r
    | .badCount t => (r.1, .skipInvalidLine lineNo t :: r.2)
    | .badNumber t => (r.1, .skipBadNumber lineNo t :: r.2)
    | .ok s => (s :: r.1, r.2)

/-- `read_shoes_data()`: clears `shoes_list` (the previous store `prev` is
discarded unconditionally), reads all lines, reports an empty file, skips
the header line, decodes the rest, and reports the loaded count; each
caught exception leaves the store empty with a diagnostic. -/
def read_shoes_data (prev : List Shoe) (outcome : ReadOutcome) : List Shoe × List Msg :=
  match prev, outcome with
  | _, .ok lines =>
    match lines with
    | [] => ([], [.emptyFile])
    | _header :: rest =>
      let r := parseLines 2 rest
      (r.1, r.2 ++ [.loaded r.1.length])
  | _, .fileMissing => ([], [.fileNotFoundMsg])
  | _, .permissionDenied => ([], [.permissionDeniedMsg])
  | _, .otherError e => ([], [.unexpectedReadError e])

/-- A re-prompting numeric input loop (`while True: try: parse(input())`):
consume raw inputs until one parses, returning the value and the rest of
the stream; `none` when the stream runs out (the real loop would still be
waiting at the prompt). -/
def askParse {α : Type} (p : String → Option α) : List String → Option (α × List String)
  | [] => none
  | s :: rest =>
    match p (pyStrip s) with
    | some v => some (v, rest)
    | none => askParse p rest

/-- `capture_shoes()`: read country, code and product (any text, stripped),
then a cost and a quantity through re-prompting loops, and append one new
`Shoe` to the end of the store. The backing file is not touched, so it is
passed through unchanged. -/
def capture_shoes (store : List Shoe) (file : List String) (inputs : List String) :
    Option (List Shoe × List String × List Msg) :=
  match inputs with
  | country :: code :: product :: rest =>
    match askParse pyFloat? rest with
    | some (cost, rest2) =>
      match askParse pyInt? rest2 with
      | some (quantity, _) =>
        some (store ++ [⟨pyStrip country, pyStrip code, pyStrip product, cost, quantity⟩],
              file, [.shoeCaptured])
      | none => none
    | none => none
  | _ => none

/-- The stripped five fields of a data line as `_update_quantity_in_file`
sees them (`none` when the line is blank or its comma-split is not five
fields). -/
def parseFields (line : String) : Option (String × String × String × String × String) :=
  let raw := rstripNLStr line
  if pyStrip raw = "" then none
  else
    match (pySplit raw ',').map pyStrip with
    | [country, code, product, cost, quantity] => some (country, code, product, cost, quantity)
    | _ => none

/-- The replacement line written for a matched code: the stripped fields
re-joined with the new quantity and a trailing newline
(`f"{country},{code},{product},{cost},{new_quantity}\n"`). -/
def encodeUpdatedLine (country code product cost : String) (new_quantity : Int) : String :=
  country ++ "," ++ code ++ "," ++ product ++ "," ++ cost ++ "," ++ intToStr new_quantity ++ "\n"

/-- One iteration of `_update_quantity_in_file`'s loop: blank lines are
kept verbatim, non-five-field lines are kept with a newline ensured, and
five-field lines whose stripped `code` equals the target are replaced
(flag `true`); other five-field lines are kept with a newline ensured. -/
def lineRewrite (target_code : String) (new_quantity : Int) (line : String) : Bool × String :=
  match parseFields line with
  | some (country, code, product, cost, _qty) =>
    if code = target_code then (true, encodeUpdatedLine country code product cost new_quantity)
    else (false, ensureNL line)
  | none =>
    if pyStrip (rstripNLStr line) = "" then (false, line) else (false, ensureNL line)

/-- Whether a data line's stripped `code` field equals the target code. -/
def lineCodeMatches (target_code : String) (line : String) : Bool :=
  match parseFields line with
  | some (_, code, _, _, _) => code == target_code
  | none => false

/-- `_update_quantity_in_file(target_code, new_quantity)`: re-read the
file; an empty file yields `False` with no write; otherwise keep the
header verbatim, run `lineRewrite` over the remaining lines, and only
when some line matched write the rewritten content (returning `True`);
when nothing matched the file is left as it was and `False` is returned. -/
def _update_quantity_in_file (fileLines : List String) (target_code : String)
    (new_quantity : Int) : Bool × List String :=
  match fileLines with
  | [] => (false, [])
  | header :: rest =>
    let processed := rest.map (lineRewrite target_code new_quantity)
    if processed.any (fun r => r.1) then (true, header :: processed.map (fun r => r.2))
    else (false, header :: rest)

/-- Index of the first store element attaining the minimum quantity:
`min(shoes_list, key=lambda s: s.quantity)` scans left to right and
replaces its candidate only on a strictly smaller key, so it returns the
first record with minimal quantity. -/
def pyMinIdx : List Shoe → Nat
  | [] => 0
  | [_] => 0
  | x :: y :: ys =>
    if (((y :: ys).getD (pyMinIdx (y :: ys)) default)).quantity < x.quantity then
      pyMinIdx (y :: ys) + 1
    else 0

/-- The restock increment loop: `int(input())` with re-prompting on parse
failure and on values `<= 0`, until a positive integer arrives (`none`
when the finite input stream runs out before that). -/
def askPositiveInt : List String → Option Int
  | [] => none
  | s :: rest =>
    match pyInt? (pyStrip s) with
    | some n => if n ≤ 0 then askPositiveInt rest else some n
    | none => askPositiveInt rest

/-- `re_stock()`: report an empty store; otherwise show the first
minimum-quantity shoe, cancel unless the stripped lowercased confirmation
is exactly `"y"`, read a positive increment, add it to that shoe's
quantity in memory, rewrite the backing file for its code, and warn when
the rewrite reported no update. -/
def re_stock (store : List Shoe) (file : List String) (confirm : String)
    (qtyInputs : List String) : Option (List Shoe × List String × List Msg) :=
  match store with
  | [] => some (store, file, [.nothingLoaded])
  | _ :: _ =>
    let i := pyMinIdx store
    let lowest := store.getD i default
    if pyLower (pyStrip confirm) ≠ "y" then
      some (store, file, [.lowestStockItem lowest, .restockCancelled])
    else
      match askPositiveInt qtyInputs with
      | none => none
      | some k =>
        let lowest2 := { lowest with quantity := lowest.quantity + k }
        let upd := _update_quantity_in_file file lowest2.code lowest2.quantity
        some (store.set i lowest2, upd.2,
          [.lowestStockItem lowest] ++ (if upd.1 then [] else [.warnFileNotUpdated]) ++
            [.stockUpdated lowest2])

/-- The scan inside `search_shoe`: first record whose `code` equals the
searched code, in store order. -/
def findFirst (code : String) : List Shoe → Option Shoe
  | [] => none
  | s :: rest => if s.code = code then some s else findFirst code rest

/-- `search_shoe()`: report an empty store and return `None`; otherwise
strip the entered code and return the first record with that exact code
(`None` when no record matches). -/
def search_shoe (store : List Shoe) (rawInput : String) : Option Shoe × List Msg :=
  match store with
  | [] => (none, [.nothingLoaded])
  | _ :: _ => (findFirst (pyStrip rawInput) store, [])


/-! ### Basic facts about the embedded operations -/

/-- The two per-line skip diagnostics of `read_shoes_data`. -/
def isSkipMsg : Msg → Bool
  | .skipInvalidLine _ _ => true
  | .skipBadNumber _ _ => true
  | _ => false

/-- A line `read_shoes_data` skips noisily: non-blank but undecodable. -/
def lineSkipped (l : String) : Bool :=
  !(pyStrip l == "") && (decodeLine l).isNone

theorem classifyLine_of_blank {l : String} (h : pyStrip l = "") : classifyLine l = .blank := by
  simp [classifyLine, h]

theorem blank_of_classifyLine {l : String} (h : classifyLine l = .blank) : pyStrip l = "" := by
  by_cases hb : pyStrip l = ""
  · exact hb
  · exfalso
    simp only [classifyLine, if_neg hb] at h
    split at h <;> (try split at h) <;> simp_all

theorem decodeLine_eq_classify (l : String) :
    decodeLine l = match classifyLine l with | .ok s => some s | _ => none := rfl

theorem parseLines_fst (ls : List String) : ∀ n, (parseLines n ls).1 = ls.filterMap decodeLine := by
  induction ls with
  | nil => intro n; rfl
  | cons l rest ih =>
    intro n
    cases h : classifyLine l <;>
      simp [parseLines, h, List.filterMap_cons, decodeLine_eq_classify, ih]

theorem parseLines_skip_count (ls : List String) :
    ∀ n, ((parseLines n ls).2).countP isSkipMsg = ls.countP lineSkipped := by
  induction ls with
  | nil => intro n; rfl
  | cons l rest ih =>
    intro n
    cases h : classifyLine l with
    | blank =>
      have hb := blank_of_classifyLine h
      simp [parseLines, h, List.countP_cons, lineSkipped, hb, ih]
    | badCount t =>
      have hb : pyStrip l ≠ "" := fun c => by simp [classifyLine_of_blank c] at h
      simp [parseLines, h, List.countP_cons, lineSkipped, hb, decodeLine_eq_classify,
        isSkipMsg, ih]
    | badNumber t =>
      have hb : pyStrip l ≠ "" := fun c => by simp [classifyLine_of_blank c] at h
      simp [parseLines, h, List.countP_cons, lineSkipped, hb, decodeLine_eq_classify,
        isSkipMsg, ih]
    | ok s =>
      simp [parseLines, h, List.countP_cons, lineSkipped, decodeLine_eq_classify, ih]

theorem length_filterMap_eq_countP {α β : Type} (f : α → Option β) (ls : List α) :
    (ls.filterMap f).length = ls.countP (fun a => (f a).isSome) := by
  induction ls with
  | nil => rfl
  | cons a rest ih =>
    cases h : f a <;> simp [List.filterMap_cons, h, List.countP_cons, ih]

theorem parseFields_blank {line : String} (h : pyStrip (rstripNLStr line) = "") :
    parseFields line = none := by
  simp [parseFields, h]

theorem lineRewrite_fst (tc : String) (nq : Int) (line : String) :
    (lineRewrite tc nq line).1 = lineCodeMatches tc line := by
  cases h : parseFields line with
  | none =>
    by_cases hb : pyStrip (rstripNLStr line) = "" <;>
      simp [lineRewrite, lineCodeMatches, h, hb]
  | some t =>
    obtain ⟨c, k, p, cost, q⟩ := t
    by_cases hk : k = tc <;> simp [lineRewrite, lineCodeMatches, h, hk]

theorem lineRewrite_blank {line : String} (tc : String) (nq : Int)
    (h : pyStrip (rstripNLStr line) = "") : lineRewrite tc nq line = (false, line) := by
  simp [lineRewrite, parseFields_blank h, h]

theorem lineRewrite_match {line c k p cost q : String} (tc : String) (nq : Int)
    (h : parseFields line = some (c, k, p, cost, q)) (hk : k = tc) :
    lineRewrite tc nq line = (true, encodeUpdatedLine c k p cost nq) := by
  simp [lineRewrite, h, hk]

theorem lineRewrite_nomatch_fields {line c k p cost q : String} (tc : String) (nq : Int)
    (h : parseFields line = some (c, k, p, cost, q)) (hk : k ≠ tc) :
    lineRewrite tc nq line = (false, ensureNL line) := by
  simp [lineRewrite, h, hk]

theorem lineRewrite_malformed {line : String} (tc : String) (nq : Int)
    (h : parseFields line = none) (hb : pyStrip (rstripNLStr line) ≠ "") :
    lineRewrite tc nq line = (false, ensureNL line) := by
  simp [lineRewrite, h, hb]

theorem lineCodeMatches_of_fields {line c k p cost q : String} (tc : String)
    (h : parseFields line = some (c, k, p, cost, q)) :
    lineCodeMatches tc line = (k == tc) := by
  simp [lineCodeMatches, h]

theorem update_eq (header : String) (rest : List String) (tc : String) (nq : Int) :
    _update_quantity_in_file (header :: rest) tc nq =
      if rest.any (lineCodeMatches tc) then
        (true, header :: rest.map (fun l => (lineRewrite tc nq l).2))
      else (false, header :: rest) := by
  have hany : ((rest.map (lineRewrite tc nq)).any (fun r => r.1)) =
      rest.any (lineCodeMatches tc) := by
    induction rest with
    | nil => rfl
    | cons l ls ih => simp [lineRewrite_fst, ih]
  have hmap : (rest.map (lineRewrite tc nq)).map (fun r => r.2) =
      rest.map (fun l => (lineRewrite tc nq l).2) := by
    rw [List.map_map]; rfl
  simp only [_update_quantity_in_file, hany, hmap]

theorem update_no_match {rest : List String} (header tc : String) (nq : Int)
    (h : ∀ l ∈ rest, lineCodeMatches tc l = false) :
    _update_quantity_in_file (header :: rest) tc nq = (false, header :: rest) := by
  rw [update_eq]
  have hc : rest.any (lineCodeMatches tc) = false := by
    by_contra hc
    rw [Bool.not_eq_false, List.any_eq_true] at hc
    obtain ⟨l, hl, hm⟩ := hc
    rw [h l hl] at hm
    exact Bool.false_ne_true hm
  rw [hc]
  simp

theorem update_line_at {rest : List String} (header tc : String) (nq : Int) {i : Nat}
    (hi : i < rest.length) (hmatch : rest.any (lineCodeMatches tc) = true) :
    ((_update_quantity_in_file (header :: rest) tc nq).2).getD (i + 1) "" =
      (lineRewrite tc nq (rest.getD i "")).2 := by
  rw [update_eq, if_pos hmatch]
  have hi2 : i < (rest.map (fun l => (lineRewrite tc nq l).2)).length := by
    simpa using hi
  simp only [List.getD_cons_succ]
  rw [List.getD_eq_getElem _ _ hi2, List.getElem_map, List.getD_eq_getElem _ _ hi]

theorem pyMinIdx_cons2 (x y : Shoe) (ys : List Shoe) :
    pyMinIdx (x :: y :: ys) =
      if ((y :: ys).getD (pyMinIdx (y :: ys)) default).quantity < x.quantity then
        pyMinIdx (y :: ys) + 1
      else 0 := rfl

theorem pyMinIdx_lt_length : ∀ (l : List Shoe), l ≠ [] → pyMinIdx l < l.length := by
  intro l
  induction l with
  | nil => intro h; exact absurd rfl h
  | cons x xs ih =>
    intro _
    cases xs with
    | nil => simp [pyMinIdx]
    | cons y ys =>
      have hlt := ih (by simp)
      rw [pyMinIdx_cons2]
      by_cases hbest : ((y :: ys).getD (pyMinIdx (y :: ys)) default).quantity < x.quantity
      · rw [if_pos hbest]
        simpa using Nat.succ_lt_succ hlt
      · rw [if_neg hbest]
        simp

theorem pyMinIdx_min : ∀ (l : List Shoe) (j : Nat), j < l.length →
    (l.getD (pyMinIdx l) default).quantity ≤ (l.getD j default).quantity := by
  intro l
  induction l with
  | nil => intro j hj; simp at hj
  | cons x xs ih =>
    intro j hj
    cases xs with
    | nil =>
      cases j with
      | zero => simp [pyMinIdx]
      | succ j => simp at hj
    | cons y ys =>
      rw [pyMinIdx_cons2]
      by_cases hbest : ((y :: ys).getD (pyMinIdx (y :: ys)) default).quantity < x.quantity
      · rw [if_pos hbest, List.getD_cons_succ]
        cases j with
        | zero =>
          rw [List.getD_cons_zero]
          exact le_of_lt hbest
        | succ j =>
          rw [List.getD_cons_succ]
          exact ih j (by simpa using hj)
      · rw [if_neg hbest, List.getD_cons_zero]
        cases j with
        | zero => rw [List.getD_cons_zero]
        | succ j =>
          rw [List.getD_cons_succ]
          have h1 : x.quantity ≤ ((y :: ys).getD (pyMinIdx (y :: ys)) default).quantity :=
            le_of_not_lt hbest
          exact le_trans h1 (ih j (by simpa using hj))

theorem pyMinIdx_first : ∀ (l : List Shoe) (j : Nat), j < pyMinIdx l →
    (l.getD (pyMinIdx l) default).quantity < (l.getD j default).quantity := by
  intro l
  induction l with
  | nil => intro j hj; simp [pyMinIdx] at hj
  | cons x xs ih =>
    intro j hj
    cases xs with
    | nil => simp [pyMinIdx] at hj
    | cons y ys =>
      rw [pyMinIdx_cons2] at hj ⊢
      by_cases hbest : ((y :: ys).getD (pyMinIdx (y :: ys)) default).quantity < x.quantity
      · rw [if_pos hbest] at hj ⊢
        rw [List.getD_cons_succ]
        cases j with
        | zero =>
          rw [List.getD_cons_zero]
          exact hbest
        | succ j =>
          rw [List.getD_cons_succ]
          exact ih j (by simpa using hj)
      · rw [if_neg hbest] at hj
        simp at hj

theorem findFirst_some {code : String} : ∀ {l : List Shoe} {r : Shoe},
    findFirst code l = some r →
    ∃ i, i < l.length ∧ l.getD i default = r ∧ r.code = code ∧
      ∀ j, j < i → (l.getD j default).code ≠ code := by
  intro l
  induction l with
  | nil => intro r h; simp [findFirst] at h
  | cons s rest ih =>
    intro r h
    by_cases hc : s.code = code
    · rw [findFirst, if_pos hc] at h
      obtain rfl : s = r := Option.some.inj h
      exact ⟨0, by simp, by simp, hc, fun j hj => absurd hj (Nat.not_lt_zero j)⟩
    · rw [findFirst, if_neg hc] at h
      obtain ⟨i, hi, hget, hcode, hfirst⟩ := ih h
      refine ⟨i + 1, by simpa using hi, by simpa using hget, hcode, ?_⟩
      intro j hj
      cases j with
      | zero => simpa using hc
      | succ j =>
        rw [List.getD_cons_succ]
        exact hfirst j (by omega)

theorem findFirst_none {code : String} : ∀ {l : List Shoe},
    findFirst code l = none → ∀ r ∈ l, r.code ≠ code := by
  intro l
  induction l with
  | nil => intro _ r hr; simp at hr
  | cons s rest ih =>
    intro h r hr
    by_cases hc : s.code = code
    · rw [findFirst, if_pos hc] at h; exact absurd h (by simp)
    · rw [findFirst, if_neg hc] at h
      rcases List.mem_cons.mp hr with rfl | hr2
      · exact hc
      · exact ih h r hr2

/-! ### Claim theorems -/

/-- C5: every Load invocation discards the previous Store unconditionally;
a missing file, a permission failure, any other I/O failure, and an empty
(zero-line) file each log one diagnostic and leave the Store empty, and
the result never depends on the Store contents at entry. -/
theorem C5_load_clears_and_handles_errors :
    (∀ prev, read_shoes_data prev .fileMissing = ([], [.fileNotFoundMsg])) ∧
    (∀ prev, read_shoes_data prev .permissionDenied = ([], [.permissionDeniedMsg])) ∧
    (∀ prev e, read_shoes_data prev (.otherError e) = ([], [.unexpectedReadError e])) ∧
    (∀ prev, read_shoes_data prev (.ok []) = ([], [.emptyFile])) ∧
    (∀ prev prev2 outcome, read_shoes_data prev outcome = read_shoes_data prev2 outcome) := by
  refine ⟨fun prev => rfl, fun prev => rfl, fun prev e => rfl, fun prev => rfl, ?_⟩
  intro prev prev2 outcome
  cases outcome with
  | ok lines => cases lines <;> rfl
  | fileMissing => rfl
  | permissionDenied => rfl
  | otherError e => rfl

/-- C6: Load skips line 1 (the header binder is arbitrary and absent from
the result), decodes the remaining lines in file order, yields exactly the
successfully decoded Records (so the Store length is the number of
syntactically valid data lines), and emits exactly one skip diagnostic
per non-blank undecodable line (blank lines are skipped without one). -/
theorem C6_load_counts_valid_lines (prev : List Shoe) (header : String) (rest : List String) :
    (read_shoes_data prev (.ok (header :: rest))).1 = rest.filterMap decodeLine ∧
    (read_shoes_data prev (.ok (header :: rest))).1.length =
      rest.countP (fun l => (decodeLine l).isSome) ∧
    ((read_shoes_data prev (.ok (header :: rest))).2).countP isSkipMsg =
      rest.countP lineSkipped := by
  have h1 : (read_shoes_data prev (.ok (header :: rest))).1 = (parseLines 2 rest).1 := rfl
  have h2 : (read_shoes_data prev (.ok (header :: rest))).2 =
      (parseLines 2 rest).2 ++ [.loaded (parseLines 2 rest).1.length] := rfl
  refine ⟨?_, ?_, ?_⟩
  · rw [h1, parseLines_fst]
  · rw [h1, parseLines_fst, length_filterMap_eq_countP]
  · rw [h2, List.countP_append, parseLines_skip_count]
    simp [isSkipMsg]

/-- C8: Search on an empty Store reports nothing-loaded and returns
not-found; on a non-empty Store it returns the first Record (in Store
order) whose `code` equals the stripped operator input exactly, and
not-found only when no Record's code equals it. -/
theorem C8_search_returns_first_exact_match :
    (∀ raw, search_shoe [] raw = (none, [.nothingLoaded])) ∧
    (∀ (store : List Shoe) (raw : String) (r : Shoe), store ≠ [] →
      (search_shoe store raw).1 = some r →
      ∃ i, i < store.length ∧ store.getD i default = r ∧ r.code = pyStrip raw ∧
        ∀ j, j < i → (store.getD j default).code ≠ pyStrip raw) ∧
    (∀ (store : List Shoe) (raw : String), store ≠ [] →
      (search_shoe store raw).1 = none → ∀ r ∈ store, r.code ≠ pyStrip raw) := by
  refine ⟨fun raw => rfl, ?_, ?_⟩
  · intro store raw r hne h
    obtain ⟨x, xs, rfl⟩ := List.exists_cons_of_ne_nil hne
    exact findFirst_some h
  · intro store raw hne h
    obtain ⟨x, xs, rfl⟩ := List.exists_cons_of_ne_nil hne
    exact findFirst_none h

/-- Witness for C8 at a concrete Store and input: searching `" Y "` in a
two-record store finds the second record, whose code is the stripped
input, with no earlier match. -/
theorem C8_search_returns_first_exact_match_witness :
    ∃ i, i < ([⟨"a", "X", "p", 0, 1⟩, ⟨"b", "Y", "q", 0, 2⟩] : List Shoe).length ∧
      ([⟨"a", "X", "p", 0, 1⟩, ⟨"b", "Y", "q", 0, 2⟩] : List Shoe).getD i default =
        ⟨"b", "Y", "q", 0, 2⟩ ∧
      (⟨"b", "Y", "q", 0, 2⟩ : Shoe).code = pyStrip " Y " ∧
      ∀ j, j < i →
        (([⟨"a", "X", "p", 0, 1⟩, ⟨"b", "Y", "q", 0, 2⟩] : List Shoe).getD j default).code ≠
          pyStrip " Y " :=
  C8_search_returns_first_exact_match.2.1 [⟨"a", "X", "p", 0, 1⟩, ⟨"b", "Y", "q", 0, 2⟩]
    " Y " ⟨"b", "Y", "q", 0, 2⟩ (by decide) (by decide)

/-- C9: Capture appends exactly one new Record at the end of the Store and
passes the backing file through untouched; the three text fields accept
arbitrary strings (stripped), and the numeric prompts skip (re-prompt on)
any input that fails to parse. -/
theorem C9_capture_appends_one_record_only :
    (∀ (store : List Shoe) (file : List String) (country code product : String)
        (rest rest2 rest3 : List String) (cost : Rat) (quantity : Int),
      askParse pyFloat? rest = some (cost, rest2) →
      askParse pyInt? rest2 = some (quantity, rest3) →
      capture_shoes store file (country :: code :: product :: rest) =
        some (store ++ [⟨pyStrip country, pyStrip code, pyStrip product, cost, quantity⟩],
          file, [.shoeCaptured])) ∧
    (∀ {α : Type} (p : String → Option α) (s : String) (rest : List String),
      p (pyStrip s) = none → askParse p (s :: rest) = askParse p rest) := by
  constructor
  · intro store file country code product rest rest2 rest3 cost quantity h1 h2
    simp [capture_shoes, h1, h2]
  · intro α p s rest h
    simp [askParse, h]

/-- Witness for C9 at concrete inputs: empty country, stripped code, a
rejected cost input `"abc"` and a rejected quantity input `"x"`, ending
with one appended record and the file untouched. -/
theorem C9_capture_appends_one_record_only_witness :
    capture_shoes [] ["f\n"] ("" :: " C1 " :: "P" :: ["abc", "2", "x", "7"]) =
      some ([] ++ [⟨pyStrip "", pyStrip " C1 ", pyStrip "P", 2, 7⟩], ["f\n"], [.shoeCaptured]) :=
  C9_capture_appends_one_record_only.1 [] ["f\n"] "" " C1 " "P" ["abc", "2", "x", "7"]
    ["x", "7"] [] 2 7 (by decide) (by decide)

/-- C10: the Restock confirmation proceeds exactly when the stripped,
lowercased response is `"y"`; any other response (including `"yes"`)
cancels, leaving the Store and the backing file unchanged, and a `"y"`
response never produces the cancellation message. -/
theorem C10_restock_confirmation_exactly_y :
    (∀ (store : List Shoe) (file : List String) (confirm : String) (ins : List String),
      store ≠ [] → pyLower (pyStrip confirm) ≠ "y" →
      re_stock store file confirm ins =
        some (store, file,
          [.lowestStockItem (store.getD (pyMinIdx store) default), .restockCancelled])) ∧
    pyLower (pyStrip " YES ") ≠ "y" ∧
    (∀ (store : List Shoe) (file : List String) (confirm : String) (ins : List String)
        (out : List Shoe × List String × List Msg),
      pyLower (pyStrip confirm) = "y" →
      re_stock store file confirm ins = some out → Msg.restockCancelled ∉ out.2.2) := by
  refine ⟨?_, by decide, ?_⟩
  · intro store file confirm ins hne hno
    obtain ⟨x, xs, rfl⟩ := List.exists_cons_of_ne_nil hne
    simp only [re_stock]
    rw [if_pos hno]
  · intro store file confirm ins out hy h
    cases store with
    | nil =>
      obtain rfl : ([], file, [Msg.nothingLoaded]) = out := Option.some.inj h
      simp
    | cons x xs =>
      simp only [re_stock] at h
      rw [if_neg (by simp [hy])] at h
      cases hask : askPositiveInt ins with
      | none => rw [hask] at h; cases h
      | some k =>
        rw [hask] at h
        obtain rfl := Option.some.inj h
        by_cases hupd :
            (_update_quantity_in_file (file)
              ({ (x :: xs).getD (pyMinIdx (x :: xs)) default with
                  quantity := ((x :: xs).getD (pyMinIdx (x :: xs)) default).quantity + k }).code
              ({ (x :: xs).getD (pyMinIdx (x :: xs)) default with
                  quantity := ((x :: xs).getD (pyMinIdx (x :: xs)) default).quantity + k }).quantity).1 <;>
          simp [hupd]

/-- Witness for C10 at a concrete Store: the response `" YES "` cancels,
leaving the one-record store and the file exactly as they were. -/
theorem C10_restock_confirmation_exactly_y_witness :
    re_stock [⟨"a", "X", "p", 0, 1⟩] ["h\n"] " YES " ["3"] =
      some ([⟨"a", "X", "p", 0, 1⟩], ["h\n"],
        [.lowestStockItem (([⟨"a", "X", "p", 0, 1⟩] : List Shoe).getD
            (pyMinIdx [⟨"a", "X", "p", 0, 1⟩]) default), .restockCancelled]) :=
  C10_restock_confirmation_exactly_y.1 [⟨"a", "X", "p", 0, 1⟩] ["h\n"] " YES " ["3"]
    (by decide) (by decide)

/-- C7: Restock on an empty Store only reports nothing-loaded; on a
non-empty Store it selects the first Record attaining the minimum
quantity (strictly smaller than every earlier record, no larger than any
record); the increment prompt skips non-numeric and non-positive inputs
and accepts the first positive integer; and after confirmation with a
positive increment `k` the selected Record's in-memory quantity grows by
exactly `k` while every other Record is unchanged. -/
theorem C7_restock_min_first_and_increment :
    (∀ (file : List String) (confirm : String) (ins : List String),
      re_stock [] file confirm ins = some ([], file, [.nothingLoaded])) ∧
    (∀ store : List Shoe, store ≠ [] →
      pyMinIdx store < store.length ∧
      (∀ j, j < store.length →
        (store.getD (pyMinIdx store) default).quantity ≤ (store.getD j default).quantity) ∧
      (∀ j, j < pyMinIdx store →
        (store.getD (pyMinIdx store) default).quantity < (store.getD j default).quantity)) ∧
    (∀ (s : String) (rest : List String),
      pyInt? (pyStrip s) = none → askPositiveInt (s :: rest) = askPositiveInt rest) ∧
    (∀ (s : String) (rest : List String) (n : Int),
      pyInt? (pyStrip s) = some n → n ≤ 0 →
      askPositiveInt (s :: rest) = askPositiveInt rest) ∧
    (∀ (s : String) (rest : List String) (n : Int),
      pyInt? (pyStrip s) = some n → 0 < n → askPositiveInt (s :: rest) = some n) ∧
    (∀ (store : List Shoe) (file : List String) (confirm : String) (ins : List String)
        (k : Int),
      store ≠ [] → pyLower (pyStrip confirm) = "y" → askPositiveInt ins = some k →
      ∃ out, re_stock store file confirm ins = some out ∧
        out.1.length = store.length ∧
        (out.1.getD (pyMinIdx store) default).quantity =
          (store.getD (pyMinIdx store) default).quantity + k ∧
        ∀ j, j < store.length → j ≠ pyMinIdx store →
          out.1.getD j default = store.getD j default) := by
  refine ⟨fun file confirm ins => rfl, ?_, ?_, ?_, ?_, ?_⟩
  · intro store hne
    exact ⟨pyMinIdx_lt_length store hne, pyMinIdx_min store, pyMinIdx_first store⟩
  · intro s rest h
    simp [askPositiveInt, h]
  · intro s rest n h hn
    simp [askPositiveInt, h, hn]
  · intro s rest n h hn
    simp [askPositiveInt, h, not_le.mpr hn]
  · intro store file confirm ins k hne hy hask
    obtain ⟨x, xs, rfl⟩ := List.exists_cons_of_ne_nil hne
    have hi : pyMinIdx (x :: xs) < (x :: xs).length := pyMinIdx_lt_length _ (by simp)
    have hnn : ¬(pyLower (pyStrip confirm) ≠ "y") := by simp [hy]
    simp only [re_stock, if_neg hnn, hask]
    refine ⟨_, rfl, ?_, ?_, ?_⟩
    · exact List.length_set _ _ _
    · have hib : pyMinIdx (x :: xs) <
          (((x :: xs).set (pyMinIdx (x :: xs))
            { (x :: xs).getD (pyMinIdx (x :: xs)) default with
                quantity := ((x :: xs).getD (pyMinIdx (x :: xs)) default).quantity + k })).length := by
        rwa [List.length_set]
      rw [List.getD_eq_getElem _ _ hib, List.getElem_set_self _]
    · intro j hj hjne
      have hjb : j <
          (((x :: xs).set (pyMinIdx (x :: xs))
            { (x :: xs).getD (pyMinIdx (x :: xs)) default with
                quantity := ((x :: xs).getD (pyMinIdx (x :: xs)) default).quantity + k })).length := by
        rwa [List.length_set]
      rw [List.getD_eq_getElem _ _ hjb, List.getElem_set_ne (Ne.symm hjne) _,
        List.getD_eq_getElem _ _ hj]

/-- Witness for C7 at a concrete Store: the increment inputs `"0"`,
`"-2"`, `"abc"` are all rejected and `"4"` is accepted; the second record
(quantity 3, the minimum) grows to 7 and the first record is unchanged. -/
theorem C7_restock_min_first_and_increment_witness :
    ∃ out, re_stock [⟨"a", "A", "p", 0, 5⟩, ⟨"b", "B", "q", 0, 3⟩] [] "Y " ["0", "-2", "abc", "4"] =
        some out ∧
      out.1.length = ([⟨"a", "A", "p", 0, 5⟩, ⟨"b", "B", "q", 0, 3⟩] : List Shoe).length ∧
      (out.1.getD (pyMinIdx [⟨"a", "A", "p", 0, 5⟩, ⟨"b", "B", "q", 0, 3⟩]) default).quantity =
        (([⟨"a", "A", "p", 0, 5⟩, ⟨"b", "B", "q", 0, 3⟩] : List Shoe).getD
          (pyMinIdx [⟨"a", "A", "p", 0, 5⟩, ⟨"b", "B", "q", 0, 3⟩]) default).quantity + 4 ∧
      ∀ j, j < ([⟨"a", "A", "p", 0, 5⟩, ⟨"b", "B", "q", 0, 3⟩] : List Shoe).length →
        j ≠ pyMinIdx [⟨"a", "A", "p", 0, 5⟩, ⟨"b", "B", "q", 0, 3⟩] →
        out.1.getD j default =
          ([⟨"a", "A", "p", 0, 5⟩, ⟨"b", "B", "q", 0, 3⟩] : List Shoe).getD j default :=
  C7_restock_min_first_and_increment.2.2.2.2.2
    [⟨"a", "A", "p", 0, 5⟩, ⟨"b", "B", "q", 0, 3⟩] [] "Y " ["0", "-2", "abc", "4"] 4
    (by decide) (by decide) (by decide)

/-- C3: when no data line's code field matches the target code, the file
rewrite is aborted with the file content unchanged, and a confirmed
Restock in that situation still applies the in-memory quantity increase
to the selected Record while reporting the not-found warning and leaving
the backing file completely unmodified. -/
theorem C3_restock_code_not_found :
    (∀ (lines : List String) (tc : String) (nq : Int),
      (∀ l ∈ lines.drop 1, lineCodeMatches tc l = false) →
      _update_quantity_in_file lines tc nq = (false, lines)) ∧
    (∀ (store : List Shoe) (file : List String) (confirm : String) (ins : List String)
        (k : Int),
      store ≠ [] → pyLower (pyStrip confirm) = "y" → askPositiveInt ins = some k →
      (∀ l ∈ file.drop 1,
        lineCodeMatches (store.getD (pyMinIdx store) default).code l = false) →
      re_stock store file confirm ins =
        some (store.set (pyMinIdx store)
            { store.getD (pyMinIdx store) default with
                quantity := (store.getD (pyMinIdx store) default).quantity + k },
          file,
          [.lowestStockItem (store.getD (pyMinIdx store) default), .warnFileNotUpdated,
            .stockUpdated { store.getD (pyMinIdx store) default with
                quantity := (store.getD (pyMinIdx store) default).quantity + k }])) := by
  have habort : ∀ (lines : List String) (tc : String) (nq : Int),
      (∀ l ∈ lines.drop 1, lineCodeMatches tc l = false) →
      _update_quantity_in_file lines tc nq = (false, lines) := by
    intro lines tc nq h
    cases lines with
    | nil => rfl
    | cons header rest => exact update_no_match header tc nq (by simpa using h)
  refine ⟨habort, ?_⟩
  intro store file confirm ins k hne hy hask hnf
  obtain ⟨x, xs, rfl⟩ := List.exists_cons_of_ne_nil hne
  have hnn : ¬(pyLower (pyStrip confirm) ≠ "y") := by simp [hy]
  have hupd := habort file
    ({ (x :: xs).getD (pyMinIdx (x :: xs)) default with
        quantity := ((x :: xs).getD (pyMinIdx (x :: xs)) default).quantity + k }).code
    ({ (x :: xs).getD (pyMinIdx (x :: xs)) default with
        quantity := ((x :: xs).getD (pyMinIdx (x :: xs)) default).quantity + k }).quantity
    hnf
  simp only [re_stock, if_neg hnn, hask, hupd]
  rfl

/-- Witness for C3 at a concrete state: the store's only record has code
`"Z"`, absent from the file, so the file survives byte-identically, the
warning is emitted, and the in-memory quantity still grows from 1 to 4. -/
theorem C3_restock_code_not_found_witness :
    re_stock [⟨"a", "Z", "p", 0, 1⟩] ["h\n", "A,X,P,1,2\n"] "y" ["3"] =
      some (([⟨"a", "Z", "p", 0, 1⟩] : List Shoe).set (pyMinIdx [⟨"a", "Z", "p", 0, 1⟩])
          { ([⟨"a", "Z", "p", 0, 1⟩] : List Shoe).getD (pyMinIdx [⟨"a", "Z", "p", 0, 1⟩])
              default with
              quantity := (([⟨"a", "Z", "p", 0, 1⟩] : List Shoe).getD
                (pyMinIdx [⟨"a", "Z", "p", 0, 1⟩]) default).quantity + 3 },
        ["h\n", "A,X,P,1,2\n"],
        [.lowestStockItem (([⟨"a", "Z", "p", 0, 1⟩] : List Shoe).getD
            (pyMinIdx [⟨"a", "Z", "p", 0, 1⟩]) default),
          .warnFileNotUpdated,
          .stockUpdated { ([⟨"a", "Z", "p", 0, 1⟩] : List Shoe).getD
              (pyMinIdx [⟨"a", "Z", "p", 0, 1⟩]) default with
              quantity := (([⟨"a", "Z", "p", 0, 1⟩] : List Shoe).getD
                (pyMinIdx [⟨"a", "Z", "p", 0, 1⟩]) default).quantity + 3 }]) :=
  C3_restock_code_not_found.2 [⟨"a", "Z", "p", 0, 1⟩] ["h\n", "A,X,P,1,2\n"] "y" ["3"] 3
    (by decide) (by decide) (by decide) (by decide)

/-- Counterexample to C1: with two data lines sharing code `"X"`, the
persistence step rewrites the second matching line as well — its quantity
field becomes the new value 9 instead of being copied through as the
on-disk `"B,X,Q,3,4\n"`. -/
theorem C1_counterexample_second_match_rewritten :
    ((_update_quantity_in_file ["h\n", "A,X,P,1,2\n", "B,X,Q,3,4\n"] "X" 9).2).getD 2 "" =
      "B,X,Q,3,9\n" ∧
    ("B,X,Q,3,9\n" : String) ≠ "B,X,Q,3,4\n" := by decide

/-- C1 amended: the rewrite loop never stops at the first match — every
data line whose stripped code field equals the target code has its
quantity field rewritten to the new value (and the update is reported). -/
theorem C1_amended_every_match_rewritten (header : String) (rest : List String)
    (tc : String) (nq : Int) (i : Nat) (c k p cost q : String)
    (hi : i < rest.length)
    (hf : parseFields (rest.getD i "") = some (c, k, p, cost, q))
    (hk : k = tc) :
    (_update_quantity_in_file (header :: rest) tc nq).1 = true ∧
    ((_update_quantity_in_file (header :: rest) tc nq).2).getD (i + 1) "" =
      encodeUpdatedLine c k p cost nq := by
  have hmatch : lineCodeMatches tc (rest.getD i "") = true := by
    rw [lineCodeMatches_of_fields tc hf]
    simp [hk]
  have hmem : rest.getD i "" ∈ rest := by
    rw [List.getD_eq_getElem _ _ hi]
    exact List.getElem_mem hi
  have hany : rest.any (lineCodeMatches tc) = true :=
    List.any_eq_true.mpr ⟨rest.getD i "", hmem, hmatch⟩
  constructor
  · rw [update_eq, if_pos hany]
  · rw [update_line_at header tc nq hi hany, lineRewrite_match tc nq hf hk]

/-- Witness for the amended C1 at the counterexample file: the second
matching line (index 1 in the data lines) is rewritten with quantity 9. -/
theorem C1_amended_every_match_rewritten_witness :
    (_update_quantity_in_file ("h\n" :: ["A,X,P,1,2\n", "B,X,Q,3,4\n"]) "X" 9).1 = true ∧
    ((_update_quantity_in_file ("h\n" :: ["A,X,P,1,2\n", "B,X,Q,3,4\n"]) "X" 9).2).getD
        (1 + 1) "" = encodeUpdatedLine "B" "X" "Q" "3" 9 :=
  C1_amended_every_match_rewritten "h\n" ["A,X,P,1,2\n", "B,X,Q,3,4\n"] "X" 9 1
    "B" "X" "Q" "3" "4" (by decide) (by decide) rfl

/-- Counterexample to C2: a confirmed Restock on a file whose matching
line carries whitespace around its country field (`" A ,X,P,1.5,2\n"`)
rewrites that line as `"A,X,P,1.5,7\n"` — the country field text is
stripped, not byte-identical to the `" A "` on disk, so the rewritten
line differs from the byte-preserving `" A ,X,P,1.5,7\n"` the claim
requires. -/
theorem C2_counterexample_fields_restripped :
    re_stock [⟨"A", "X", "P", 0, 2⟩] ["h\n", " A ,X,P,1.5,2\n"] "y" ["5"] =
      some ([⟨"A", "X", "P", 0, 7⟩], ["h\n", "A,X,P,1.5,7\n"],
        [.lowestStockItem ⟨"A", "X", "P", 0, 2⟩, .stockUpdated ⟨"A", "X", "P", 0, 7⟩]) ∧
    ("A,X,P,1.5,7\n" : String) ≠ " A ,X,P,1.5,7\n" := by decide

/-- C2 amended: when the rewrite reports an update, the new content keeps
the header verbatim and has one line per old line, where each matching
data line becomes the comma-join of its whitespace-stripped country,
code, product and cost fields with the new quantity and a trailing
newline, each blank line is copied byte-identically, and each other line
is copied byte-identically except that a missing final newline is
appended (a line that already ends in a newline is kept verbatim); when
no line matches, the whole content is unchanged. -/
theorem C2_amended_rewrite_shape (header : String) (rest : List String) (tc : String)
    (nq : Int) :
    ((_update_quantity_in_file (header :: rest) tc nq).1 = false →
      (_update_quantity_in_file (header :: rest) tc nq).2 = header :: rest) ∧
    ((_update_quantity_in_file (header :: rest) tc nq).1 = true →
      ((_update_quantity_in_file (header :: rest) tc nq).2).length = rest.length + 1 ∧
      ((_update_quantity_in_file (header :: rest) tc nq).2).getD 0 "" = header ∧
      ∀ i, i < rest.length →
        (∀ c k p cost q, parseFields (rest.getD i "") = some (c, k, p, cost, q) → k = tc →
          ((_update_quantity_in_file (header :: rest) tc nq).2).getD (i + 1) "" =
            encodeUpdatedLine c k p cost nq) ∧
        (lineCodeMatches tc (rest.getD i "") = false →
          (pyStrip (rstripNLStr (rest.getD i "")) = "" →
            ((_update_quantity_in_file (header :: rest) tc nq).2).getD (i + 1) "" =
              rest.getD i "") ∧
          (pyStrip (rstripNLStr (rest.getD i "")) ≠ "" →
            ((_update_quantity_in_file (header :: rest) tc nq).2).getD (i + 1) "" =
              ensureNL (rest.getD i "")))) ∧
    (∀ l, endsWithNL l = true → ensureNL l = l) := by
  refine ⟨?_, ?_, fun l hl => by simp [ensureNL, hl]⟩
  · intro hfalse
    rcases hany : rest.any (lineCodeMatches tc) with _ | _
    · rw [update_eq, if_neg (by simp [hany])]
    · rw [update_eq, if_pos hany] at hfalse
      cases hfalse
  · intro htrue
    have hany : rest.any (lineCodeMatches tc) = true := by
      rcases hany : rest.any (lineCodeMatches tc) with _ | _
      · rw [update_eq, if_neg (by simp [hany])] at htrue
        cases htrue
      · rfl
    refine ⟨?_, ?_, ?_⟩
    · rw [update_eq, if_pos hany]
      simp
    · rw [update_eq, if_pos hany]
      rfl
    · intro i hi
      constructor
      · intro c k p cost q hf hk
        rw [update_line_at header tc nq hi hany, lineRewrite_match tc nq hf hk]
      · intro hnomatch
        constructor
        · intro hblank
          rw [update_line_at header tc nq hi hany, lineRewrite_blank tc nq hblank]
        · intro hnonblank
          rw [update_line_at header tc nq hi hany]
          cases hf : parseFields (rest.getD i "") with
          | none => rw [lineRewrite_malformed tc nq hf hnonblank]
          | some t =>
            obtain ⟨c, k, p, cost, q⟩ := t
            have hk : k ≠ tc := by
              intro hkeq
              rw [lineCodeMatches_of_fields tc hf] at hnomatch
              simp [hkeq] at hnomatch
            rw [lineRewrite_nomatch_fields tc nq hf hk]

/-- Witness for the amended C2 at a concrete file: the matching line
`" A ,X,P,1.5,2\n"` (data index 0) is rewritten with its stripped fields
and quantity 7. -/
theorem C2_amended_rewrite_shape_witness :
    ((_update_quantity_in_file ("h\n" :: [" A ,X,P,1.5,2\n", "B,Y,Q,3,4"]) "X" 7).2).getD
        (0 + 1) "" = encodeUpdatedLine "A" "X" "P" "1.5" 7 :=
  (((C2_amended_rewrite_shape "h\n" [" A ,X,P,1.5,2\n", "B,Y,Q,3,4"] "X" 7).2.1
      (by decide)).2.2 0 (by decide)).1 "A" "X" "P" "1.5" "2" (by decide) rfl

/-- Counterexample to C4: the data line `"A,B,C,-1,-2"` parses, so Load
yields a Record with cost −1 < 0 and quantity −2 < 0; Capture with the
operator inputs `"-1"` and `"-2"` likewise appends such a Record. No
nonnegativity is enforced anywhere. -/
theorem C4_counterexample_negative_values_accepted :
    ((read_shoes_data [] (.ok ["h\n", "A,B,C,-1,-2\n"])).1.getD 0 default).cost < 0 ∧
    ((read_shoes_data [] (.ok ["h\n", "A,B,C,-1,-2\n"])).1.getD 0 default).quantity < 0 ∧
    (read_shoes_data [] (.ok ["h\n", "A,B,C,-1,-2\n"])).1.length = 1 ∧
    capture_shoes [] [] ["a", "b", "c", "-1", "-2"] =
      some ([⟨"a", "b", "c", -1, -2⟩], [], [.shoeCaptured]) := by decide

/-- C4 amended: the only invariant Load establishes is parseability —
every Record in a loaded Store is the decoding of some data line, with
its cost and quantity being exactly the parsed values, which may be
negative (witnessed by a loaded Record with cost −1 and quantity −2). -/
theorem C4_amended_parse_only_invariant :
    (∀ (prev : List Shoe) (lines : List String) (r : Shoe),
      r ∈ (read_shoes_data prev (.ok lines)).1 →
      ∃ l ∈ lines.drop 1, decodeLine l = some r) ∧
    (∃ r : Shoe, r ∈ (read_shoes_data [] (.ok ["h\n", "A,B,C,-1,-2\n"])).1 ∧
      r.cost < 0 ∧ r.quantity < 0) := by
  constructor
  · intro prev lines r hr
    cases lines with
    | nil => simp [read_shoes_data] at hr
    | cons header rest =>
      have h1 : (read_shoes_data prev (.ok (header :: rest))).1 = (parseLines 2 rest).1 := rfl
      rw [h1, parseLines_fst] at hr
      obtain ⟨l, hl, hd⟩ := List.mem_filterMap.mp hr
      exact ⟨l, by simpa using hl, hd⟩
  · exact ⟨⟨"A", "B", "C", -1, -2⟩, by decide, by decide, by decide⟩

/-- Witness for the amended C4 at a concrete load: the loaded record
comes from the single data line of the file. -/
theorem C4_amended_parse_only_invariant_witness :
    ∃ l ∈ (["h\n", "A,B,C,-1,-2\n"] : List String).drop 1,
      decodeLine l = some ⟨"A", "B", "C", -1, -2⟩ :=
  C4_amended_parse_only_invariant.1 [] ["h\n", "A,B,C,-1,-2\n"] ⟨"A", "B", "C", -1, -2⟩
    (by decide)
